import Mathlib

/-!
# blackhole: learn-and-enforce IPv4 filter

A shallow embedding of the two per-packet classifiers (`src/src/xdp_ingress.c`,
`src/src/tc_egress.c`) and of the control plane (`src/native/src/ip_blocker.cpp`),
followed by the properties established about them.

Conventions
* a frame is the byte sequence `data .. data_end`; a byte is a `Nat` below 256;
* the classifiers are compiled for a little-endian target, so a `__u32` load of the
  bytes `b0 b1 b2 b3` is `b0 + 2^8 b1 + 2^16 b2 + 2^24 b3`;
* the whitelist map is the list of its `(key, value)` entries in iteration order;
  `WHITELIST_MAP_SIZE` comes from `common.h` and is a parameter (`cap`).
-/

namespace Blackhole

/-! ## The whitelist map (`BPF_MAP_TYPE_HASH`, key `__u32`, value `__u8`) -/

/-- Entries of `whitelist_map` in iteration order: `(IPv4 address, allowed flag)`. -/
abbrev Store := List (Nat × Nat)

/-- Keys of the map in iteration order. -/
def Store.keys (s : Store) : List Nat := s.map Prod.fst

/-- Kernel helper `bpf_map_lookup_elem`: pointer to the value, `none` for `NULL`. -/
def bpf_map_lookup_elem : Store → Nat → Option Nat
  | [], _ => none
  | (k, v) :: rest, key => if k = key then some v else bpf_map_lookup_elem rest key

/-- Overwrite the value stored under `key` (the entry keeps its place). -/
def Store.replace : Store → Nat → Nat → Store
  | [], _, _ => []
  | (k, v) :: rest, key, value =>
    if k = key then (k, value) :: Store.replace rest key value
    else (k, v) :: Store.replace rest key value

/-- Error number `E2BIG`. -/
def E2BIG : Int := 7

/-- Error number `ENOENT`. -/
def ENOENT : Int := 2

/-- Error number `EEXIST`. -/
def EEXIST : Int := 17

/-- Helper `bpf_map_update_elem(map, &key, &value, BPF_ANY)` on a hash map of
`cap` entries: an existing key is overwritten, a new key is inserted while the map
holds fewer than `cap` entries, and otherwise the call fails with `-E2BIG` and the
map is left as it was. Returns the map and the return code. -/
def bpf_map_update_elem (cap : Nat) (s : Store) (key value : Nat) : Store × Int :=
  match bpf_map_lookup_elem s key with
  | some _ => (Store.replace s key value, 0)
  | none => if s.length < cap then ((key, value) :: s, 0) else (s, -E2BIG)

/-- Helper `bpf_map_delete_elem`: removes the entry, `-ENOENT` when there is none. -/
def bpf_map_delete_elem (s : Store) (key : Nat) : Store × Int :=
  match bpf_map_lookup_elem s key with
  | some _ => (s.filter (fun e => decide (e.1 ≠ key)), 0)
  | none => (s, -ENOENT)

/-- The key that follows `key` in the list `ks`, when `key` occurs in it and is
not the last one. -/
def keyAfter : List Nat → Nat → Option Nat
  | [], _ => none
  | k :: rest, key => if k = key then rest.head? else keyAfter rest key

/-- Helper `bpf_map_get_next_key`: the key after `key` in iteration order, the first
key when `key` is not in the map, failure (`none`, i.e. `-ENOENT`) when `key` is the
last key or the map is empty. -/
def bpf_map_get_next_key (s : Store) (key : Nat) : Option Nat :=
  if key ∈ s.keys then keyAfter s.keys key else s.keys.head?

/-! ## Frames and helper calls of the classifiers -/

/-- Return code `XDP_PASS`. -/
def XDP_PASS : Nat := 2

/-- Return code `XDP_DROP`. -/
def XDP_DROP : Nat := 1

/-- Return code `TC_ACT_OK`. -/
def TC_ACT_OK : Nat := 0

/-- Ethertype `ETH_P_IP`. -/
def ETH_P_IP : Nat := 0x0800

/-- Size of `struct ethhdr`. -/
def ETH_HLEN : Nat := 14

/-- Size of `struct iphdr`. -/
def IPHDR_LEN : Nat := 20

/-- Offset of `saddr` in `struct iphdr`. -/
def SADDR_OFF : Nat := 12

/-- Offset of `daddr` in `struct iphdr`. -/
def DADDR_OFF : Nat := 16

/-- Offset of `h_proto` in `struct ethhdr`. -/
def H_PROTO_OFF : Nat := 12

/-- Byte `i` of the frame. -/
def byteAt (frame : List Nat) (i : Nat) : Nat := frame.getD i 0

/-- A 16-bit load at offset `off` (little-endian target). -/
def load16 (frame : List Nat) (off : Nat) : Nat :=
  byteAt frame off + 256 * byteAt frame (off + 1)

/-- A 32-bit load at offset `off` (little-endian target). -/
def load32 (frame : List Nat) (off : Nat) : Nat :=
  byteAt frame off + 256 * byteAt frame (off + 1) + 65536 * byteAt frame (off + 2)
    + 16777216 * byteAt frame (off + 3)

/-- The byte swap `bpf_htons` of a 16-bit value (little-endian target). -/
def bpf_htons (x : Nat) : Nat := (x % 256) * 256 + (x / 256) % 256

/-- A helper call made by a classifier, in program order. -/
inductive Ev where
  | lookup (key : Nat)
  | update (key value : Nat)
  | printk (fmt : String) (args : List Nat)
  deriving DecidableEq, Repr

/-- Whether the helper call emits a diagnostic record. -/
def Ev.isPrintk : Ev → Bool
  | Ev.printk _ _ => true
  | _ => false

/-- What one classifier run leaves behind: its return code, the map, the frame
bytes and the helper calls it made. -/
structure Outcome where
  ret : Nat
  store : Store
  frame : List Nat
  trace : List Ev
  deriving DecidableEq, Repr

/-- The four `%d` arguments of the classifiers' `bpf_printk` calls. -/
def dotted (ip : Nat) : List Nat :=
  [ip &&& 0xff, (ip >>> 8) &&& 0xff, (ip >>> 16) &&& 0xff, (ip >>> 24) &&& 0xff]

/-- Format string of the ingress diagnostic. -/
def XDP_DROP_FMT : String := "XDP DROP: %d.%d.%d.%d\n"

/-- Format string of the egress diagnostic. -/
def TC_ADDED_FMT : String := "TC EGRESS: added %d.%d.%d.%d to whitelist\n"

/-! ## The classifiers -/

/-- Program `xdp_ingress_func` of `xdp_ingress.c`. -/
def xdp_ingress_func (store : Store) (frame : List Nat) : Outcome :=
  if ETH_HLEN > frame.length then ⟨XDP_PASS, store, frame, []⟩
  else if load16 frame H_PROTO_OFF ≠ bpf_htons ETH_P_IP then ⟨XDP_PASS, store, frame, []⟩
  else if ETH_HLEN + IPHDR_LEN > frame.length then ⟨XDP_PASS, store, frame, []⟩
  else
    let src_ip := load32 frame (ETH_HLEN + SADDR_OFF)
    match bpf_map_lookup_elem store src_ip with
    | some allowed =>
      if allowed ≠ 0 then ⟨XDP_PASS, store, frame, [Ev.lookup src_ip]⟩
      else ⟨XDP_DROP, store, frame,
        [Ev.lookup src_ip, Ev.printk XDP_DROP_FMT (dotted src_ip)]⟩
    | none => ⟨XDP_DROP, store, frame,
        [Ev.lookup src_ip, Ev.printk XDP_DROP_FMT (dotted src_ip)]⟩

/-- Program `tc_egress_func` of `tc_egress.c`; the return value of
`bpf_map_update_elem` is not looked at. -/
def tc_egress_func (cap : Nat) (store : Store) (frame : List Nat) : Outcome :=
  if ETH_HLEN > frame.length then ⟨TC_ACT_OK, store, frame, []⟩
  else if load16 frame H_PROTO_OFF ≠ bpf_htons ETH_P_IP then ⟨TC_ACT_OK, store, frame, []⟩
  else if ETH_HLEN + IPHDR_LEN > frame.length then ⟨TC_ACT_OK, store, frame, []⟩
  else
    let dst_ip := load32 frame (ETH_HLEN + DADDR_OFF)
    match bpf_map_lookup_elem store dst_ip with
    | none =>
      let allowed := 1
      let upd := bpf_map_update_elem cap store dst_ip allowed
      ⟨TC_ACT_OK, upd.1, frame,
        [Ev.lookup dst_ip, Ev.update dst_ip allowed, Ev.printk TC_ADDED_FMT (dotted dst_ip)]⟩
    | some _ => ⟨TC_ACT_OK, store, frame, [Ev.lookup dst_ip]⟩

/-! ## Wire-level vocabulary used in the statements -/

/-- Every element is a byte. -/
def IsBytes (frame : List Nat) : Prop := ∀ b ∈ frame, b < 256

instance (frame : List Nat) : Decidable (IsBytes frame) := by
  unfold IsBytes; infer_instance

/-- The ethertype as written on the wire (big-endian bytes 12 and 13). -/
def ethertype (frame : List Nat) : Nat := byteAt frame 12 * 256 + byteAt frame 13

/-- A frame holding a link-layer header with ethertype IPv4 followed by at least
the 20 fixed bytes of an IPv4 header. -/
def IPv4Frame (frame : List Nat) : Prop :=
  IsBytes frame ∧ 14 + 20 ≤ frame.length ∧ ethertype frame = 0x0800

instance (frame : List Nat) : Decidable (IPv4Frame frame) := by
  unfold IPv4Frame; infer_instance

/-- Source address bytes of the IPv4 header, in wire order. -/
def srcOctets (frame : List Nat) : List Nat :=
  [byteAt frame 26, byteAt frame 27, byteAt frame 28, byteAt frame 29]

/-- Destination address bytes of the IPv4 header, in wire order. -/
def dstOctets (frame : List Nat) : List Nat :=
  [byteAt frame 30, byteAt frame 31, byteAt frame 32, byteAt frame 33]

/-- The map key of an address given by its four bytes in wire order. -/
def keyOf (octets : List Nat) : Nat := load32 octets 0

/-- A minimal IPv4 frame from `src` to `dst` (addresses as four bytes each). -/
def mkFrame (src dst : List Nat) : List Nat :=
  List.replicate 12 0 ++ [8, 0] ++ List.replicate 12 0 ++ src.take 4 ++ dst.take 4

/-! ## Control plane (`ip_blocker.cpp`): session globals and the world they act on -/

/-- Library type `struct bpf_tc_hook`. -/
structure bpf_tc_hook where
  sz : Nat
  ifindex : Int
  attach_point : Nat
  parent : Nat
  deriving DecidableEq, Repr

/-- Library type `struct bpf_tc_opts`. -/
structure bpf_tc_opts where
  sz : Nat
  prog_fd : Int
  flags : Nat
  prog_id : Nat
  handle : Nat
  priority : Nat
  deriving DecidableEq, Repr

/-- Value of `sizeof(struct bpf_tc_hook)`. -/
def SIZEOF_TC_HOOK : Nat := 24

/-- Value of `sizeof(struct bpf_tc_opts)`. -/
def SIZEOF_TC_OPTS : Nat := 32

/-- Attach point `BPF_TC_EGRESS`. -/
def BPF_TC_EGRESS : Nat := 2

/-- The file-scope variables of `ip_blocker.cpp`; an image pointer is `none` for
`nullptr` and `some h` for a pointer to the image object `h`. -/
structure Session where
  tc_obj : Option Nat
  xdp_obj : Option Nat
  ifindex : Int
  tc_hook : bpf_tc_hook
  tc_opts : bpf_tc_opts
  whitelist_ips : List String
  map_fd : Int
  created_qdisc : Bool
  deriving DecidableEq, Repr

/-- The initial values of the file-scope variables (never initialized). -/
def Session.initial : Session :=
  { tc_obj := none, xdp_obj := none, ifindex := -1,
    tc_hook := ⟨0, 0, 0, 0⟩, tc_opts := ⟨0, 0, 0, 0, 0, 0⟩,
    whitelist_ips := [], map_fd := -1, created_qdisc := false }

/-- A call that acts on the kernel or on a loaded image, in program order. -/
inductive Op where
  | object_open (h : Nat)
  | object_close (h : Nat)
  | tc_hook_create
  | tc_hook_destroy
  | tc_attach
  | tc_detach
  | xdp_attach
  | xdp_detach
  | map_get_next_key (key : Nat)
  | map_delete (key : Nat)
  | map_update (key value : Nat)
  deriving DecidableEq, Repr

/-- What the control plane acts on: the pinned whitelist map, the egress attachment
point of the interface, this program's two classifiers, the image objects that are
allocated and not yet released, and the calls made so far. -/
structure World where
  store : Store
  egress_hook : Bool
  tc_attached : Bool
  xdp_attached : Bool
  images : List Nat
  next_obj : Nat
  log : List Op
  deriving DecidableEq, Repr

/-- A world in which this process holds nothing yet: the map content and whether
an egress attachment point already exists on the interface are arbitrary. -/
def World.fresh (store : Store) (egress_hook : Bool) : World :=
  { store := store, egress_hook := egress_hook, tc_attached := false,
    xdp_attached := false, images := [], next_obj := 0, log := [] }

/-- Results of the calls of `blackhole_init` that depend on the machine: the
interface table, the two image files, and the kernel's answers to create and
attach requests. -/
structure Env where
  /-- result of `if_nametoindex` (0: no such interface) -/
  if_nametoindex : String → Nat
  /-- whether `bpf_object__open_file(tc_prog_path)` succeeds -/
  tc_open : Bool
  /-- whether `bpf_object__load(tc_obj)` succeeds -/
  tc_load : Bool
  /-- whether `bpf_object__open_file(xdp_prog_path)` succeeds -/
  xdp_open : Bool
  /-- whether `bpf_object__load(xdp_obj)` succeeds -/
  xdp_load : Bool
  /-- whether `bpf_tc_hook_create` fails with an error other than `-EEXIST` -/
  hook_create_error : Bool
  /-- descriptor of program `tc_egress_func` in the egress image, `none` if absent -/
  tc_prog : Option Int
  /-- whether `bpf_tc_attach` succeeds -/
  tc_attach : Bool
  /-- handle, priority and program id that a successful `bpf_tc_attach` reports -/
  tc_handle : Nat
  tc_priority : Nat
  tc_prog_id : Nat
  /-- descriptor of program `xdp_ingress_func` in the ingress image, `none` if absent -/
  xdp_prog : Option Int
  /-- whether `bpf_xdp_attach` succeeds -/
  xdp_attach : Bool
  /-- descriptor of map `whitelist_map` in the ingress image, `none` if absent -/
  whitelist_map : Option Int

/-- The result of a control-plane call: return value, file-scope variables, world. -/
structure Ctl where
  ret : Int
  session : Session
  world : World
  deriving DecidableEq, Repr

/-! ### Library calls -/

/-- Library call `bpf_object__open_file`: a new image object on success, `NULL`
on failure. -/
def bpf_object__open_file (ok : Bool) (w : World) : Option Nat × World :=
  if ok then
    (some w.next_obj, { w with images := w.next_obj :: w.images, next_obj := w.next_obj + 1,
                               log := w.log ++ [Op.object_open w.next_obj] })
  else (none, w)

/-- Library call `bpf_object__close`: releases the image object the pointer refers
to; nothing happens on `NULL`. -/
def bpf_object__close (obj : Option Nat) (w : World) : World :=
  match obj with
  | none => w
  | some h => { w with images := w.images.erase h, log := w.log ++ [Op.object_close h] }

/-- Library call `bpf_tc_hook_create`: `0` when it creates the egress attachment
point, `-EEXIST` when one is already there, another error when the kernel refuses. -/
def bpf_tc_hook_create (refused : Bool) (w : World) : Int × World :=
  if refused then (-1, { w with log := w.log ++ [Op.tc_hook_create] })
  else if w.egress_hook then (-EEXIST, { w with log := w.log ++ [Op.tc_hook_create] })
  else (0, { w with egress_hook := true, log := w.log ++ [Op.tc_hook_create] })

/-- Library call `bpf_tc_hook_destroy`: tears down the egress attachment point;
whatever is attached to it, this program's classifier included, is detached. -/
def bpf_tc_hook_destroy (w : World) : Int × World :=
  if w.egress_hook then
    (0, { w with egress_hook := false, tc_attached := false,
                 log := w.log ++ [Op.tc_hook_destroy] })
  else (-ENOENT, { w with log := w.log ++ [Op.tc_hook_destroy] })

/-- Library call `bpf_tc_attach`. -/
def bpf_tc_attach (ok : Bool) (w : World) : Int × World :=
  if ok then (0, { w with tc_attached := true, log := w.log ++ [Op.tc_attach] })
  else (-1, { w with log := w.log ++ [Op.tc_attach] })

/-- Library call `bpf_tc_detach`. -/
def bpf_tc_detach (w : World) : Int × World :=
  if w.tc_attached then (0, { w with tc_attached := false, log := w.log ++ [Op.tc_detach] })
  else (-ENOENT, { w with log := w.log ++ [Op.tc_detach] })

/-- Library call `bpf_xdp_attach`. -/
def bpf_xdp_attach (ok : Bool) (w : World) : Int × World :=
  if ok then (0, { w with xdp_attached := true, log := w.log ++ [Op.xdp_attach] })
  else (-1, { w with log := w.log ++ [Op.xdp_attach] })

/-- Library call `bpf_xdp_detach`. -/
def bpf_xdp_detach (w : World) : Int × World :=
  (0, { w with xdp_attached := false, log := w.log ++ [Op.xdp_detach] })

/-! ### `clear_map` -/

/-- The `while` loop of `clear_map`: the map it leaves and the map calls it made. -/
def clear_loop (s : Store) (key : Nat) (ops : List Op) : Store × List Op :=
  match h : bpf_map_get_next_key s key with
  | some next_key =>
    clear_loop (bpf_map_delete_elem s next_key).1 next_key
      (ops ++ [Op.map_get_next_key key, Op.map_delete next_key])
  | none => (s, ops ++ [Op.map_get_next_key key])
termination_by s.length
decreasing_by
  have after : ∀ ks : List Nat, keyAfter ks key = some next_key → next_key ∈ ks := by
    intro ks
    induction ks with
    | nil => intro hk; simp [keyAfter] at hk
    | cons k rest ih =>
      intro hk
      unfold keyAfter at hk
      split at hk
      · exact List.mem_cons_of_mem _ (List.mem_of_mem_head? hk)
      · exact List.mem_cons_of_mem _ (ih hk)
  have hmem : next_key ∈ s.keys := by
    unfold bpf_map_get_next_key at h
    split at h
    · exact after _ h
    · exact List.mem_of_mem_head? h
  obtain ⟨e, he, hek⟩ := List.mem_map.mp hmem
  have hlt : (List.filter (fun e => decide (e.1 ≠ next_key)) s).length < s.length :=
    List.length_filter_lt_length_iff_exists.mpr ⟨e, he, by simp [hek]⟩
  unfold bpf_map_delete_elem
  split
  · exact hlt
  · rename_i hnone
    exact absurd hmem (by
      have none_notin : ∀ t : Store, bpf_map_lookup_elem t next_key = none →
          next_key ∉ t.keys := by
        intro t
        induction t with
        | nil => intro _; simp [Store.keys]
        | cons x rest ih =>
          obtain ⟨k, v⟩ := x
          intro hl
          unfold bpf_map_lookup_elem at hl
          split at hl
          · exact absurd hl (by simp)
          · rename_i hne
            simp only [Store.keys, List.map_cons, List.mem_cons, not_or]
            exact ⟨fun hh => hne hh.symm, ih hl⟩
      exact none_notin s hnone)

/-- Function `clear_map`, called with a descriptor of `whitelist_map`. -/
def clear_map (fd : Int) (w : World) : World :=
  if fd < 0 then w
  else
    let r := clear_loop w.store 0 []
    { w with store := (bpf_map_delete_elem r.1 0).1, log := w.log ++ r.2 ++ [Op.map_delete 0] }

/-! ### `inet_pton` -/

/-- The scanning loop of the C library's `inet_pton(AF_INET, ..)`: `tmp` holds the
finished address bytes, `cur` the byte being read, `saw_digit` whether the current
field has a digit, `octets` the number of fields started. -/
def inet_pton4_loop : List Char → List Nat → Nat → Bool → Nat → Option (List Nat)
  | [], tmp, cur, _, octets => if octets < 4 then none else some (tmp ++ [cur])
  | ch :: rest, tmp, cur, saw_digit, octets =>
    if '0' ≤ ch ∧ ch ≤ '9' then
      if saw_digit ∧ cur = 0 then none
      else if cur * 10 + (ch.toNat - 48) > 255 then none
      else if saw_digit then
        inet_pton4_loop rest tmp (cur * 10 + (ch.toNat - 48)) true octets
      else if octets + 1 > 4 then none
      else inet_pton4_loop rest tmp (cur * 10 + (ch.toNat - 48)) true (octets + 1)
    else if ch = '.' ∧ saw_digit then
      if octets = 4 then none
      else inet_pton4_loop rest (tmp ++ [cur]) 0 false octets
    else none

/-- Library call `inet_pton(AF_INET, ip_str, &addr)`: the four address bytes in
memory order when the string is four decimal fields (one to three digits, at most
255, no leading zero) separated by single dots, and `none` (a result other than 1)
otherwise. -/
def inet_pton (ip_str : String) : Option (List Nat) :=
  inet_pton4_loop ip_str.toList [] 0 false 0

/-! ### The functions of `ip_blocker.cpp` -/

/-- What `cleanup_internal` leaves: the variables, the world, and whether the
process has exited. -/
structure Teardown where
  session : Session
  world : World
  exited : Bool
  deriving DecidableEq, Repr

/-- Function `cleanup_internal`. -/
def cleanup_internal (do_exit : Bool) (s : Session) (w : World) : Teardown :=
  let w := if s.map_fd ≥ 0 then clear_map s.map_fd w else w
  let w := if s.ifindex > 0 then (bpf_xdp_detach w).2 else w
  let sw : Session × World :=
    if s.tc_hook.ifindex > 0 then
      let s := { s with tc_opts := { s.tc_opts with prog_fd := 0, prog_id := 0, flags := 0 } }
      let w := (bpf_tc_detach w).2
      let w := if s.created_qdisc then (bpf_tc_hook_destroy w).2 else w
      (s, w)
    else (s, w)
  let s := sw.1
  let w := sw.2
  let sw : Session × World :=
    match s.tc_obj with
    | some h => ({ s with tc_obj := none }, bpf_object__close (some h) w)
    | none => (s, w)
  let s := sw.1
  let w := sw.2
  let sw : Session × World :=
    match s.xdp_obj with
    | some h => ({ s with xdp_obj := none }, bpf_object__close (some h) w)
    | none => (s, w)
  let s := sw.1
  let w := sw.2
  let s := { s with ifindex := -1, map_fd := -1, created_qdisc := false,
                    tc_hook := ⟨0, 0, 0, 0⟩, tc_opts := ⟨0, 0, 0, 0, 0, 0⟩,
                    whitelist_ips := [] }
  ⟨s, w, do_exit⟩

/-- Function `add_to_whitelist`. -/
def add_to_whitelist (cap : Nat) (map_fd : Int) (ip_str : String) (s : Session) (w : World) :
    Ctl :=
  match inet_pton ip_str with
  | none => ⟨-1, s, w⟩
  | some addr =>
    let ip := load32 addr 0
    let allowed := 1
    let upd := bpf_map_update_elem cap w.store ip allowed
    let w := { w with store := upd.1, log := w.log ++ [Op.map_update ip allowed] }
    if upd.2 ≠ 0 then ⟨-1, s, w⟩
    else ⟨0, { s with whitelist_ips := s.whitelist_ips ++ [ip_str] }, w⟩

/-- Function `blackhole_cleanup`. -/
def blackhole_cleanup (s : Session) (w : World) : Teardown :=
  cleanup_internal false s w

/-- Function `blackhole_init`; a `none` argument is a null pointer. -/
def blackhole_init (env : Env) (ifname tc_prog_path xdp_prog_path : Option String)
    (s : Session) (w : World) : Ctl :=
  match ifname, tc_prog_path, xdp_prog_path with
  | some ifname, some _, some _ =>
    let s := { s with ifindex := (env.if_nametoindex ifname : Int) }
    if s.ifindex = 0 then ⟨-1, s, w⟩ else
    let o := bpf_object__open_file env.tc_open w
    let s := { s with tc_obj := o.1 }
    let w := o.2
    if s.tc_obj = none then ⟨-1, s, w⟩ else
    if env.tc_load = false then ⟨-1, s, bpf_object__close s.tc_obj w⟩ else
    let o := bpf_object__open_file env.xdp_open w
    let s := { s with xdp_obj := o.1 }
    let w := o.2
    if s.xdp_obj = none then ⟨-1, s, bpf_object__close s.tc_obj w⟩ else
    if env.xdp_load = false then
      ⟨-1, s, bpf_object__close s.xdp_obj (bpf_object__close s.tc_obj w)⟩ else
    let s := { s with tc_hook := { s.tc_hook with sz := SIZEOF_TC_HOOK, ifindex := s.ifindex,
                                                   attach_point := BPF_TC_EGRESS } }
    let c := bpf_tc_hook_create env.hook_create_error w
    let w := c.2
    if c.1 ≠ 0 ∧ c.1 ≠ -EEXIST then
      ⟨-1, s, bpf_object__close s.xdp_obj (bpf_object__close s.tc_obj w)⟩ else
    let s := { s with created_qdisc := decide (c.1 = 0) }
    match env.tc_prog with
    | none =>
      ⟨-1, s, bpf_object__close s.xdp_obj (bpf_object__close s.tc_obj (bpf_tc_hook_destroy w).2)⟩
    | some tc_prog_fd =>
    if tc_prog_fd < 0 then
      ⟨-1, s, bpf_object__close s.xdp_obj (bpf_object__close s.tc_obj (bpf_tc_hook_destroy w).2)⟩
    else
    let s := { s with tc_opts := { s.tc_opts with sz := SIZEOF_TC_OPTS, prog_fd := tc_prog_fd } }
    let a := bpf_tc_attach env.tc_attach w
    let w := a.2
    if a.1 ≠ 0 then
      ⟨-1, s, bpf_object__close s.xdp_obj (bpf_object__close s.tc_obj (bpf_tc_hook_destroy w).2)⟩
    else
    let s := { s with tc_opts := { s.tc_opts with handle := env.tc_handle,
                                                   priority := env.tc_priority,
                                                   prog_id := env.tc_prog_id } }
    match env.xdp_prog with
    | none =>
      ⟨-1, s, bpf_object__close s.xdp_obj (bpf_object__close s.tc_obj (bpf_tc_hook_destroy w).2)⟩
    | some xdp_prog_fd =>
    if xdp_prog_fd < 0 then
      ⟨-1, s, bpf_object__close s.xdp_obj (bpf_object__close s.tc_obj (bpf_tc_hook_destroy w).2)⟩
    else
    let x := bpf_xdp_attach env.xdp_attach w
    let w := x.2
    if x.1 ≠ 0 then
      ⟨-1, s, bpf_object__close s.xdp_obj (bpf_object__close s.tc_obj (bpf_tc_hook_destroy w).2)⟩
    else
    match env.whitelist_map with
    | none =>
      let t := blackhole_cleanup s w
      ⟨-1, t.session, t.world⟩
    | some fd =>
    let s := { s with map_fd := fd }
    if s.map_fd < 0 then
      let t := blackhole_cleanup s w
      ⟨-1, t.session, t.world⟩
    else ⟨0, s, w⟩
  | _, _, _ => ⟨-1, s, w⟩

/-- Function `blackhole_add_whitelist_ip`. -/
def blackhole_add_whitelist_ip (cap : Nat) (ip_str : String) (s : Session) (w : World) : Ctl :=
  if s.map_fd < 0 then ⟨-1, s, w⟩
  else add_to_whitelist cap s.map_fd ip_str s w

/-- Function `blackhole_clear_whitelist`. -/
def blackhole_clear_whitelist (s : Session) (w : World) : Ctl :=
  if s.map_fd < 0 then ⟨-1, s, w⟩
  else ⟨0, { s with whitelist_ips := [] }, clear_map s.map_fd w⟩

/-- An environment in which every step of `blackhole_init` succeeds. -/
def Env.good : Env :=
  { if_nametoindex := fun _ => 2, tc_open := true, tc_load := true, xdp_open := true,
    xdp_load := true, hook_create_error := false, tc_prog := some 7, tc_attach := true,
    tc_handle := 1, tc_priority := 1, tc_prog_id := 42, xdp_prog := some 8,
    xdp_attach := true, whitelist_map := some 5 }

/-! ## Basic facts about the map and the loads -/

theorem keyAfter_mem (ks : List Nat) (key nk : Nat) (h : keyAfter ks key = some nk) :
    nk ∈ ks := by
  induction ks with
  | nil => simp [keyAfter] at h
  | cons k rest ih =>
    unfold keyAfter at h
    split at h
    · exact List.mem_cons_of_mem _ (List.mem_of_mem_head? h)
    · exact List.mem_cons_of_mem _ (ih h)

theorem get_next_key_mem (s : Store) (key nk : Nat) (h : bpf_map_get_next_key s key = some nk) :
    nk ∈ s.keys := by
  unfold bpf_map_get_next_key at h
  split at h
  · exact keyAfter_mem _ _ _ h
  · exact List.mem_of_mem_head? h

theorem lookup_isSome_of_mem (s : Store) (key : Nat) (h : key ∈ s.keys) :
    ∃ v, bpf_map_lookup_elem s key = some v := by
  induction s with
  | nil => simp [Store.keys] at h
  | cons e rest ih =>
    obtain ⟨k, v⟩ := e
    by_cases hk : k = key
    · exact ⟨v, by simp [bpf_map_lookup_elem, hk]⟩
    · have : key ∈ Store.keys rest := by
        simp only [Store.keys, List.map_cons, List.mem_cons] at h
        rcases h with h | h
        · exact absurd h.symm hk
        · exact h
      obtain ⟨v2, hv2⟩ := ih this
      exact ⟨v2, by simp [bpf_map_lookup_elem, hk, hv2]⟩

theorem delete_length_lt (s : Store) (key : Nat) (h : key ∈ s.keys) :
    (bpf_map_delete_elem s key).1.length < s.length := by
  obtain ⟨v, hv⟩ := lookup_isSome_of_mem s key h
  simp only [bpf_map_delete_elem, hv]
  obtain ⟨e, he, hek⟩ := List.mem_map.mp h
  have hlt : (List.filter (fun e => decide (e.1 ≠ key)) s).length < s.length := by
    apply List.length_filter_lt_length_iff_exists.mpr
    exact ⟨e, he, by simp [hek]⟩
  exact hlt



theorem lookup_eq_none_iff (s : Store) (key : Nat) :
    bpf_map_lookup_elem s key = none ↔ key ∉ s.keys := by
  induction s with
  | nil => simp [bpf_map_lookup_elem, Store.keys]
  | cons e rest ih =>
    obtain ⟨k, v⟩ := e
    by_cases hk : k = key
    · simp [bpf_map_lookup_elem, Store.keys, hk]
    · have hk2 : ¬ key = k := fun h => hk h.symm
      simpa [bpf_map_lookup_elem, Store.keys, hk, hk2] using ih

theorem byteAt_lt (frame : List Nat) (hb : IsBytes frame) (i : Nat) : byteAt frame i < 256 := by
  unfold byteAt
  by_cases hi : i < frame.length
  · rw [List.getD_eq_getElem _ _ hi]
    exact hb _ (List.getElem_mem hi)
  · rw [List.getD_eq_default _ _ (by omega)]
    decide

theorem htons_ip : bpf_htons ETH_P_IP = 8 := by decide

theorem load16_proto (frame : List Nat) :
    load16 frame H_PROTO_OFF = byteAt frame 12 + 256 * byteAt frame 13 := rfl

theorem proto_ne_of_ethertype_ne (frame : List Nat) (h : ethertype frame ≠ 0x0800) :
    load16 frame H_PROTO_OFF ≠ bpf_htons ETH_P_IP := by
  rw [htons_ip, load16_proto]
  unfold ethertype at h
  omega

theorem proto_eq_of_ipv4 (frame : List Nat) (h : IPv4Frame frame) :
    load16 frame H_PROTO_OFF = bpf_htons ETH_P_IP := by
  obtain ⟨hb, _, he⟩ := h
  have h12 := byteAt_lt frame hb 12
  have h13 := byteAt_lt frame hb 13
  rw [htons_ip, load16_proto]
  unfold ethertype at he
  omega

theorem dotted_load32 (b0 b1 b2 b3 : Nat) (h0 : b0 < 256) (h1 : b1 < 256) (h2 : b2 < 256)
    (h3 : b3 < 256) :
    dotted (b0 + 256 * b1 + 65536 * b2 + 16777216 * b3) = [b0, b1, b2, b3] := by
  have e : ∀ x : Nat, x &&& 0xff = x % 256 := fun x => Nat.and_pow_two_sub_one_eq_mod x 8
  simp only [dotted, e, Nat.shiftRight_eq_div_pow]
  have a0 : (b0 + 256 * b1 + 65536 * b2 + 16777216 * b3) % 256 = b0 := by omega
  have a1 : (b0 + 256 * b1 + 65536 * b2 + 16777216 * b3) / 2 ^ 8 % 256 = b1 := by omega
  have a2 : (b0 + 256 * b1 + 65536 * b2 + 16777216 * b3) / 2 ^ 16 % 256 = b2 := by omega
  have a3 : (b0 + 256 * b1 + 65536 * b2 + 16777216 * b3) / 2 ^ 24 % 256 = b3 := by omega
  rw [a0, a1, a2, a3]

theorem keyOf_srcOctets (frame : List Nat) :
    keyOf (srcOctets frame) = load32 frame (ETH_HLEN + SADDR_OFF) := by
  simp [keyOf, srcOctets, load32, byteAt, ETH_HLEN, SADDR_OFF]

theorem keyOf_dstOctets (frame : List Nat) :
    keyOf (dstOctets frame) = load32 frame (ETH_HLEN + DADDR_OFF) := by
  simp [keyOf, dstOctets, load32, byteAt, ETH_HLEN, DADDR_OFF]

theorem dotted_src (frame : List Nat) (hb : IsBytes frame) :
    dotted (load32 frame (ETH_HLEN + SADDR_OFF)) = srcOctets frame := by
  simpa [load32, srcOctets, ETH_HLEN, SADDR_OFF] using
    dotted_load32 _ _ _ _ (byteAt_lt frame hb 26) (byteAt_lt frame hb 27)
      (byteAt_lt frame hb 28) (byteAt_lt frame hb 29)

theorem dotted_dst (frame : List Nat) (hb : IsBytes frame) :
    dotted (load32 frame (ETH_HLEN + DADDR_OFF)) = dstOctets frame := by
  simpa [load32, dstOctets, ETH_HLEN, DADDR_OFF] using
    dotted_load32 _ _ _ _ (byteAt_lt frame hb 30) (byteAt_lt frame hb 31)
      (byteAt_lt frame hb 32) (byteAt_lt frame hb 33)

/-- On an IPv4 frame the ingress program reaches the map lookup. -/
theorem xdp_ingress_ipv4 (store : Store) (frame : List Nat) (h : IPv4Frame frame) :
    xdp_ingress_func store frame =
      match bpf_map_lookup_elem store (keyOf (srcOctets frame)) with
      | some allowed =>
        if allowed ≠ 0 then ⟨XDP_PASS, store, frame, [Ev.lookup (keyOf (srcOctets frame))]⟩
        else ⟨XDP_DROP, store, frame, [Ev.lookup (keyOf (srcOctets frame)),
          Ev.printk XDP_DROP_FMT (srcOctets frame)]⟩
      | none => ⟨XDP_DROP, store, frame, [Ev.lookup (keyOf (srcOctets frame)),
          Ev.printk XDP_DROP_FMT (srcOctets frame)]⟩ := by
  have hp := proto_eq_of_ipv4 frame h
  obtain ⟨hb, hl, _⟩ := h
  have h1 : ¬ ETH_HLEN > frame.length := by unfold ETH_HLEN; omega
  have h2 : ¬ ETH_HLEN + IPHDR_LEN > frame.length := by unfold ETH_HLEN IPHDR_LEN; omega
  unfold xdp_ingress_func
  rw [if_neg h1, if_neg (not_not.mpr hp), if_neg h2]
  simp only [keyOf_srcOctets, dotted_src frame hb]

/-- On an IPv4 frame the egress program reaches the map lookup. -/
theorem tc_egress_ipv4 (cap : Nat) (store : Store) (frame : List Nat) (h : IPv4Frame frame) :
    tc_egress_func cap store frame =
      match bpf_map_lookup_elem store (keyOf (dstOctets frame)) with
      | none => ⟨TC_ACT_OK, (bpf_map_update_elem cap store (keyOf (dstOctets frame)) 1).1, frame,
          [Ev.lookup (keyOf (dstOctets frame)), Ev.update (keyOf (dstOctets frame)) 1,
           Ev.printk TC_ADDED_FMT (dstOctets frame)]⟩
      | some _ => ⟨TC_ACT_OK, store, frame, [Ev.lookup (keyOf (dstOctets frame))]⟩ := by
  have hp := proto_eq_of_ipv4 frame h
  obtain ⟨hb, hl, _⟩ := h
  have h1 : ¬ ETH_HLEN > frame.length := by unfold ETH_HLEN; omega
  have h2 : ¬ ETH_HLEN + IPHDR_LEN > frame.length := by unfold ETH_HLEN IPHDR_LEN; omega
  unfold tc_egress_func
  rw [if_neg h1, if_neg (not_not.mpr hp), if_neg h2]
  simp only [keyOf_dstOctets, dotted_dst frame hb]

/-! ## Ingress default-deny and fail-open -/

/-- C2. An IPv4 frame whose source address is not a key of the map is dropped by
`xdp_ingress_func`, the map (and the frame) stay as they were, and the run emits
exactly one diagnostic record, whose four numbers are the source address bytes in
wire order. -/
theorem ingress_default_deny (store : Store) (frame : List Nat) (hf : IPv4Frame frame)
    (habs : keyOf (srcOctets frame) ∉ store.keys) :
    (xdp_ingress_func store frame).ret = XDP_DROP ∧
    (xdp_ingress_func store frame).store = store ∧
    (xdp_ingress_func store frame).frame = frame ∧
    (xdp_ingress_func store frame).trace.filter Ev.isPrintk =
      [Ev.printk XDP_DROP_FMT (srcOctets frame)] := by
  rw [xdp_ingress_ipv4 store frame hf, (lookup_eq_none_iff _ _).mpr habs]
  simp [Ev.isPrintk]

/-- An ingress frame from 10.0.0.1 while only 10.0.0.2 is whitelisted. -/
theorem ingress_default_deny_witness :
    IPv4Frame (mkFrame [10, 0, 0, 1] [192, 168, 1, 7]) ∧
    (xdp_ingress_func [(keyOf [10, 0, 0, 2], 1)] (mkFrame [10, 0, 0, 1] [192, 168, 1, 7])).ret
      = XDP_DROP ∧
    (xdp_ingress_func [(keyOf [10, 0, 0, 2], 1)]
      (mkFrame [10, 0, 0, 1] [192, 168, 1, 7])).trace.filter Ev.isPrintk
      = [Ev.printk XDP_DROP_FMT [10, 0, 0, 1]] :=
  have h := ingress_default_deny [(keyOf [10, 0, 0, 2], 1)]
    (mkFrame [10, 0, 0, 1] [192, 168, 1, 7]) (by decide) (by decide)
  ⟨by decide, h.1, h.2.2.2⟩

/-- C3. A frame shorter than the 14-byte link-layer header, or whose ethertype is
not IPv4, or too short for a 20-byte IPv4 header after the link-layer header, is
passed by both programs (`XDP_PASS`, `TC_ACT_OK`) with no helper call at all (no map
lookup, no map write, no diagnostic), and map and frame are left as they were. -/
theorem fail_open (cap : Nat) (store : Store) (frame : List Nat)
    (h : frame.length < 14 ∨ ethertype frame ≠ 0x0800 ∨ frame.length < 14 + 20) :
    xdp_ingress_func store frame = ⟨XDP_PASS, store, frame, []⟩ ∧
    tc_egress_func cap store frame = ⟨TC_ACT_OK, store, frame, []⟩ := by
  unfold xdp_ingress_func tc_egress_func
  by_cases h1 : ETH_HLEN > frame.length
  · simp [h1]
  · by_cases h2 : load16 frame H_PROTO_OFF ≠ bpf_htons ETH_P_IP
    · simp [h1, h2]
    · have h3 : ETH_HLEN + IPHDR_LEN > frame.length := by
        rcases h with h | h | h
        · unfold ETH_HLEN at h1; omega
        · exact absurd (proto_ne_of_ethertype_ne frame h) h2
        · unfold ETH_HLEN IPHDR_LEN; omega
      simp [h1, h2, h3]

/-- An IPv6 frame (ethertype 0x86dd) goes through both programs untouched. -/
theorem fail_open_witness :
    xdp_ingress_func [(5, 1)] (List.replicate 12 0 ++ [0x86, 0xdd] ++ List.replicate 40 0)
      = ⟨XDP_PASS, [(5, 1)], List.replicate 12 0 ++ [0x86, 0xdd] ++ List.replicate 40 0, []⟩ ∧
    tc_egress_func 8 [(5, 1)] (List.replicate 12 0 ++ [0x86, 0xdd] ++ List.replicate 40 0)
      = ⟨TC_ACT_OK, [(5, 1)], List.replicate 12 0 ++ [0x86, 0xdd] ++ List.replicate 40 0, []⟩ :=
  fail_open 8 [(5, 1)] (List.replicate 12 0 ++ [0x86, 0xdd] ++ List.replicate 40 0)
    (Or.inr (Or.inl (by decide)))

/-! ## Learn-and-enforce -/

theorem lookup_cons_self (s : Store) (key value : Nat) :
    bpf_map_lookup_elem ((key, value) :: s) key = some value := by
  simp [bpf_map_lookup_elem]

/-- The egress program on an IPv4 frame whose destination is absent from a map with
room: the entry `(D, 1)` is inserted. -/
theorem tc_egress_learns (cap : Nat) (store : Store) (f : List Nat) (hf : IPv4Frame f)
    (habs : bpf_map_lookup_elem store (keyOf (dstOctets f)) = none)
    (hroom : store.length < cap) :
    (tc_egress_func cap store f).store = (keyOf (dstOctets f), 1) :: store := by
  rw [tc_egress_ipv4 cap store f hf, habs]
  simp [bpf_map_update_elem, habs, hroom]

/-- The egress program on an IPv4 frame whose destination is a key of the map: one
lookup, nothing else. -/
theorem tc_egress_known (cap : Nat) (store : Store) (f : List Nat) (hf : IPv4Frame f)
    (v : Nat) (hv : bpf_map_lookup_elem store (keyOf (dstOctets f)) = some v) :
    tc_egress_func cap store f = ⟨TC_ACT_OK, store, f, [Ev.lookup (keyOf (dstOctets f))]⟩ := by
  rw [tc_egress_ipv4 cap store f hf, hv]

/-- C1 as stated fails: with the key of 10.0.0.1 present under flag 0 (so an upsert
of it could succeed), an egress frame to 10.0.0.1 writes nothing and an ingress frame
from 10.0.0.1 is still dropped. -/
theorem learn_and_enforce_counterexample :
    IPv4Frame (mkFrame [192, 168, 1, 7] [10, 0, 0, 1]) ∧
    IPv4Frame (mkFrame [10, 0, 0, 1] [192, 168, 1, 7]) ∧
    keyOf (dstOctets (mkFrame [192, 168, 1, 7] [10, 0, 0, 1])) ∈
      Store.keys [(keyOf [10, 0, 0, 1], 0)] ∧
    keyOf (srcOctets (mkFrame [10, 0, 0, 1] [192, 168, 1, 7])) =
      keyOf (dstOctets (mkFrame [192, 168, 1, 7] [10, 0, 0, 1])) ∧
    (xdp_ingress_func
      (tc_egress_func 4 [(keyOf [10, 0, 0, 1], 0)] (mkFrame [192, 168, 1, 7] [10, 0, 0, 1])).store
      (mkFrame [10, 0, 0, 1] [192, 168, 1, 7])).ret = XDP_DROP := by
  decide

/-- C1, amended. Let `D` be an address that is either a key of the map with a
nonzero allowed flag, or absent from a map holding fewer than `cap` entries. After
`tc_egress_func` has processed an IPv4 frame with destination `D`,
`xdp_ingress_func` returns `XDP_PASS` on every IPv4 frame with source `D`; and a
second egress frame to `D` leaves the map exactly as the first one left it and emits
no diagnostic record. -/
theorem learn_and_enforce (cap D : Nat) (store : Store) (f f2 g : List Nat)
    (hf : IPv4Frame f) (hf2 : IPv4Frame f2) (hg : IPv4Frame g)
    (hfD : keyOf (dstOctets f) = D) (hf2D : keyOf (dstOctets f2) = D)
    (hgD : keyOf (srcOctets g) = D)
    (hst : (∃ v, bpf_map_lookup_elem store D = some v ∧ v ≠ 0) ∨
      (D ∉ store.keys ∧ store.length < cap)) :
    (xdp_ingress_func (tc_egress_func cap store f).store g).ret = XDP_PASS ∧
    (tc_egress_func cap (tc_egress_func cap store f).store f2).store =
      (tc_egress_func cap store f).store ∧
    (tc_egress_func cap (tc_egress_func cap store f).store f2).trace.filter Ev.isPrintk = [] := by
  have key : ∃ v, bpf_map_lookup_elem (tc_egress_func cap store f).store D = some v ∧ v ≠ 0 := by
    rcases hst with ⟨v, hv, hv0⟩ | ⟨habs, hroom⟩
    · rw [tc_egress_known cap store f hf v (by rw [hfD]; exact hv)]
      exact ⟨v, hv, hv0⟩
    · have hn := (lookup_eq_none_iff store D).mpr habs
      rw [tc_egress_learns cap store f hf (by rw [hfD]; exact hn) hroom, hfD]
      exact ⟨1, lookup_cons_self store D 1, by decide⟩
  obtain ⟨v, hv, hv0⟩ := key
  refine ⟨?_, ?_, ?_⟩
  · rw [xdp_ingress_ipv4 _ g hg, hgD, hv]
    simp [hv0]
  · rw [tc_egress_known cap _ f2 hf2 v (by rw [hf2D]; exact hv)]
  · rw [tc_egress_known cap _ f2 hf2 v (by rw [hf2D]; exact hv)]
    simp [Ev.isPrintk]

/-- Egress to 10.0.0.1 on a map with room, then ingress from 10.0.0.1 and a second
egress frame to it. -/
theorem learn_and_enforce_witness :
    (xdp_ingress_func
      (tc_egress_func 4 [(keyOf [10, 0, 0, 2], 1)] (mkFrame [192, 168, 1, 7] [10, 0, 0, 1])).store
      (mkFrame [10, 0, 0, 1] [192, 168, 1, 7])).ret = XDP_PASS ∧
    (tc_egress_func 4
      (tc_egress_func 4 [(keyOf [10, 0, 0, 2], 1)] (mkFrame [192, 168, 1, 7] [10, 0, 0, 1])).store
      (mkFrame [192, 168, 1, 9] [10, 0, 0, 1])).store =
      (tc_egress_func 4 [(keyOf [10, 0, 0, 2], 1)] (mkFrame [192, 168, 1, 7] [10, 0, 0, 1])).store ∧
    (tc_egress_func 4
      (tc_egress_func 4 [(keyOf [10, 0, 0, 2], 1)] (mkFrame [192, 168, 1, 7] [10, 0, 0, 1])).store
      (mkFrame [192, 168, 1, 9] [10, 0, 0, 1])).trace.filter Ev.isPrintk = [] :=
  learn_and_enforce 4 (keyOf [10, 0, 0, 1]) [(keyOf [10, 0, 0, 2], 1)]
    (mkFrame [192, 168, 1, 7] [10, 0, 0, 1]) (mkFrame [192, 168, 1, 9] [10, 0, 0, 1])
    (mkFrame [10, 0, 0, 1] [192, 168, 1, 7]) (by decide) (by decide) (by decide)
    (by decide) (by decide) (by decide) (Or.inr (by decide))

/-! ## Egress on a full map -/

/-- The egress program on an IPv4 frame whose destination is absent from a map that
is at capacity: the update fails and the map stays as it was, yet the diagnostic
record is emitted. -/
theorem tc_egress_full (cap : Nat) (store : Store) (f : List Nat) (hf : IPv4Frame f)
    (habs : keyOf (dstOctets f) ∉ store.keys) (hfull : cap ≤ store.length) :
    tc_egress_func cap store f = ⟨TC_ACT_OK, store, f,
      [Ev.lookup (keyOf (dstOctets f)), Ev.update (keyOf (dstOctets f)) 1,
       Ev.printk TC_ADDED_FMT (dstOctets f)]⟩ := by
  have hn := (lookup_eq_none_iff store _).mpr habs
  rw [tc_egress_ipv4 cap store f hf, hn]
  simp [bpf_map_update_elem, hn, Nat.not_lt.mpr hfull]

/-- C4 (code defect). With a map of capacity 1 that holds 1.1.1.1, an egress frame
to 2.2.2.2 cannot be learned: the update fails with `-E2BIG` and the map is
unchanged, but `tc_egress_func` still emits the diagnostic
"TC EGRESS: added 2.2.2.2 to whitelist". -/
theorem egress_full_still_prints :
    IPv4Frame (mkFrame [192, 168, 1, 7] [2, 2, 2, 2]) ∧
    keyOf (dstOctets (mkFrame [192, 168, 1, 7] [2, 2, 2, 2])) ∉
      Store.keys [(keyOf [1, 1, 1, 1], 1)] ∧
    bpf_map_update_elem 1 [(keyOf [1, 1, 1, 1], 1)] (keyOf [2, 2, 2, 2]) 1 =
      ([(keyOf [1, 1, 1, 1], 1)], -E2BIG) ∧
    tc_egress_func 1 [(keyOf [1, 1, 1, 1], 1)] (mkFrame [192, 168, 1, 7] [2, 2, 2, 2]) =
      ⟨TC_ACT_OK, [(keyOf [1, 1, 1, 1], 1)], mkFrame [192, 168, 1, 7] [2, 2, 2, 2],
        [Ev.lookup (keyOf [2, 2, 2, 2]), Ev.update (keyOf [2, 2, 2, 2]) 1,
         Ev.printk TC_ADDED_FMT [2, 2, 2, 2]]⟩ := by
  decide

/-! ## `clear_map` -/

theorem delete_keys_not_mem (s : Store) (key : Nat) :
    key ∉ Store.keys (bpf_map_delete_elem s key).1 := by
  unfold bpf_map_delete_elem
  split
  · simp [Store.keys]
  · rename_i hnone
    exact (lookup_eq_none_iff s key).mp hnone

/-- Once the cursor key is not in the map, the loop of `clear_map` removes every
entry. -/
theorem clear_loop_of_not_mem (n : Nat) : ∀ (s : Store) (key : Nat) (ops : List Op),
    s.length ≤ n → key ∉ s.keys → (clear_loop s key ops).1 = [] := by
  induction n with
  | zero =>
    intro s key ops hlen _
    have hs : s = [] := List.length_eq_zero.mp (Nat.le_zero.mp hlen)
    subst hs
    rw [clear_loop]
    split
    · rename_i nk hnk
      simp [bpf_map_get_next_key, Store.keys] at hnk
    · rfl
  | succ n ih =>
    intro s key ops hlen hkey
    rw [clear_loop]
    split
    · rename_i nk hnk
      have hmem := get_next_key_mem s key nk hnk
      have hlt := delete_length_lt s nk hmem
      exact ih _ nk _ (by omega) (delete_keys_not_mem s nk)
    · rename_i hnone
      simp only [bpf_map_get_next_key, hkey, if_false] at hnone
      cases s with
      | nil => rfl
      | cons e rest => simp [Store.keys] at hnone

/-- What `clear_map` leaves in the map: nothing, except when key 0 is the last key in
iteration order, in which case only the entry of key 0 is removed. -/
theorem clear_map_store (fd : Int) (w : World) (hfd : 0 ≤ fd) :
    (clear_map fd w).store =
      if 0 ∈ w.store.keys ∧ keyAfter w.store.keys 0 = none
      then w.store.filter (fun e => decide (e.1 ≠ 0)) else [] := by
  have hfd2 : ¬ fd < 0 := by omega
  simp only [clear_map, if_neg hfd2]
  rw [clear_loop]
  split
  · rename_i nk hnk
    have hmem := get_next_key_mem w.store 0 nk hnk
    have hempty := clear_loop_of_not_mem _ _ nk
      ([] ++ [Op.map_get_next_key 0, Op.map_delete nk]) (le_refl _)
      (delete_keys_not_mem w.store nk)
    rw [hempty]
    have hcond : ¬ (0 ∈ w.store.keys ∧ keyAfter w.store.keys 0 = none) := by
      rintro ⟨h0, hk⟩
      simp [bpf_map_get_next_key, h0, hk] at hnk
    rw [if_neg hcond]
    simp [bpf_map_delete_elem, bpf_map_lookup_elem]
  · rename_i hnone
    by_cases h0 : 0 ∈ w.store.keys
    · simp only [bpf_map_get_next_key, h0, if_true] at hnone
      rw [if_pos ⟨h0, hnone⟩]
      obtain ⟨v, hv⟩ := lookup_isSome_of_mem w.store 0 h0
      simp [bpf_map_delete_elem, hv]
    · simp only [bpf_map_get_next_key, h0, if_false] at hnone
      have hcond : ¬ (0 ∈ w.store.keys ∧ keyAfter w.store.keys 0 = none) := fun h => h0 h.1
      rw [if_neg hcond]
      cases hw : w.store with
      | nil => simp [bpf_map_delete_elem, bpf_map_lookup_elem]
      | cons e rest => rw [hw] at hnone; simp [Store.keys] at hnone

/-- C5 (code defect). With 10.0.0.1 and 0.0.0.0 in the map and 0.0.0.0 last in
iteration order, `blackhole_clear_whitelist` returns 0 but only removes 0.0.0.0:
`bpf_map_get_next_key` from key 0 fails at once, the loop body never runs, and the
entry of 10.0.0.1 is still there. -/
theorem clear_whitelist_leaves_entry :
    bpf_map_get_next_key [(keyOf [10, 0, 0, 1], 1), (keyOf [0, 0, 0, 0], 1)] 0 = none ∧
    (blackhole_clear_whitelist { Session.initial with map_fd := 5 }
      (World.fresh [(keyOf [10, 0, 0, 1], 1), (keyOf [0, 0, 0, 0], 1)] true)).ret = 0 ∧
    (blackhole_clear_whitelist { Session.initial with map_fd := 5 }
      (World.fresh [(keyOf [10, 0, 0, 1], 1), (keyOf [0, 0, 0, 0], 1)] true)).world.store
      = [(keyOf [10, 0, 0, 1], 1)] := by
  refine ⟨by decide, by decide, ?_⟩
  have h := clear_map_store 5 (World.fresh [(keyOf [10, 0, 0, 1], 1), (keyOf [0, 0, 0, 0], 1)] true)
    (by decide)
  have e : (blackhole_clear_whitelist { Session.initial with map_fd := 5 }
      (World.fresh [(keyOf [10, 0, 0, 1], 1), (keyOf [0, 0, 0, 0], 1)] true)).world
      = clear_map 5 (World.fresh [(keyOf [10, 0, 0, 1], 1), (keyOf [0, 0, 0, 0], 1)] true) := by
    simp [blackhole_clear_whitelist, Session.initial]
  rw [e, h]
  decide

/-! ## `blackhole_add_whitelist_ip` -/

theorem replace_of_not_mem (s : Store) (key value : Nat) (h : key ∉ s.keys) :
    Store.replace s key value = s := by
  induction s with
  | nil => rfl
  | cons e rest ih =>
    obtain ⟨k, v⟩ := e
    simp only [Store.keys, List.map_cons, List.mem_cons, not_or] at h
    have hk : ¬ k = key := fun hh => h.1 hh.symm
    simp only [Store.replace, if_neg hk]
    rw [ih h.2]

theorem replace_idem (s : Store) (key value : Nat) :
    Store.replace (Store.replace s key value) key value = Store.replace s key value := by
  induction s with
  | nil => rfl
  | cons e rest ih =>
    obtain ⟨k, v⟩ := e
    by_cases hk : k = key
    · simp [Store.replace, hk, ih]
    · simp [Store.replace, hk, ih]

theorem lookup_replace_self (s : Store) (key value x : Nat)
    (h : bpf_map_lookup_elem s key = some x) :
    bpf_map_lookup_elem (Store.replace s key value) key = some value := by
  induction s with
  | nil => simp [bpf_map_lookup_elem] at h
  | cons e rest ih =>
    obtain ⟨k, v⟩ := e
    by_cases hk : k = key
    · simp [Store.replace, bpf_map_lookup_elem, hk]
    · simp only [bpf_map_lookup_elem, if_neg hk] at h
      simp [Store.replace, bpf_map_lookup_elem, hk, ih h]

theorem lookup_replace_other (s : Store) (key value k2 : Nat) (h : k2 ≠ key) :
    bpf_map_lookup_elem (Store.replace s key value) k2 = bpf_map_lookup_elem s k2 := by
  induction s with
  | nil => rfl
  | cons e rest ih =>
    obtain ⟨k, v⟩ := e
    by_cases hk : k = key
    · have hk2 : ¬ key = k2 := fun hh => h hh.symm
      simp [Store.replace, bpf_map_lookup_elem, hk, hk2, ih]
    · by_cases hkk : k = k2
      · subst hkk
        simp [Store.replace, bpf_map_lookup_elem, hk]
      · simp [Store.replace, bpf_map_lookup_elem, hk, hkk, ih]

/-- A successful `BPF_ANY` update: the key is mapped to the value, every other key
is as before, and the same update again changes nothing. -/
theorem update_ok (cap : Nat) (s : Store) (key value : Nat)
    (h : key ∈ s.keys ∨ s.length < cap) :
    (bpf_map_update_elem cap s key value).2 = 0 ∧
    bpf_map_lookup_elem (bpf_map_update_elem cap s key value).1 key = some value ∧
    (∀ k2, k2 ≠ key → bpf_map_lookup_elem (bpf_map_update_elem cap s key value).1 k2 =
      bpf_map_lookup_elem s k2) ∧
    bpf_map_update_elem cap (bpf_map_update_elem cap s key value).1 key value =
      ((bpf_map_update_elem cap s key value).1, 0) := by
  cases hl : bpf_map_lookup_elem s key with
  | some x =>
    have h1 := lookup_replace_self s key value x hl
    simp only [bpf_map_update_elem, hl, h1, replace_idem]
    exact ⟨trivial, trivial, fun k2 hk2 => lookup_replace_other s key value k2 hk2, trivial⟩
  | none =>
    have hnot := (lookup_eq_none_iff s key).mp hl
    have hroom : s.length < cap := by
      rcases h with h | h
      · exact absurd h hnot
      · exact h
    have hrep : Store.replace s key value = s := replace_of_not_mem s key value hnot
    simp only [bpf_map_update_elem, hl, hroom, if_true, lookup_cons_self]
    refine ⟨trivial, trivial, ?_, ?_⟩
    · intro k2 hk2
      have : ¬ key = k2 := fun hh => hk2 hh.symm
      simp [bpf_map_lookup_elem, this]
    · simp [Store.replace, hrep]

/-- An update with a new key on a map at capacity fails and changes nothing. -/
theorem update_full (cap : Nat) (s : Store) (key value : Nat)
    (habs : key ∉ s.keys) (hfull : cap ≤ s.length) :
    bpf_map_update_elem cap s key value = (s, -E2BIG) := by
  have hl := (lookup_eq_none_iff s key).mpr habs
  simp [bpf_map_update_elem, hl, Nat.not_lt.mpr hfull]

/-- C6 as stated fails: with a live map descriptor and the well-formed address
"2.2.2.2", `blackhole_add_whitelist_ip` still returns -1 when the map (capacity 1)
already holds another address. -/
theorem add_counterexample :
    (0 : Int) ≤ ({ Session.initial with map_fd := 5 } : Session).map_fd ∧
    inet_pton "2.2.2.2" = some [2, 2, 2, 2] ∧
    (blackhole_add_whitelist_ip 1 "2.2.2.2" { Session.initial with map_fd := 5 }
      (World.fresh [(keyOf [1, 1, 1, 1], 1)] true)).ret = -1 := by
  decide

/-- C6, amended. `blackhole_add_whitelist_ip` returns -1 and leaves the map as it
was when there is no live map descriptor or the string is not a dotted-decimal IPv4
address. With a live descriptor and an address string with bytes `octets`: when its
key is already in the map or the map holds fewer than `cap` entries, the call
returns 0, the key is mapped to 1, every other key is as before, an ingress frame
whose source address bytes are `octets` is passed by `xdp_ingress_func`, and adding
the same string again returns 0 and leaves the map unchanged; when the key is
absent and the map is at capacity, the call returns -1 and leaves the map as it
was. -/
theorem add_contract (cap : Nat) (ip_str : String) (s : Session) (w : World) :
    (s.map_fd < 0 ∨ inet_pton ip_str = none →
      (blackhole_add_whitelist_ip cap ip_str s w).ret = -1 ∧
      (blackhole_add_whitelist_ip cap ip_str s w).world.store = w.store) ∧
    (∀ octets, 0 ≤ s.map_fd → inet_pton ip_str = some octets →
      (keyOf octets ∈ w.store.keys ∨ w.store.length < cap →
        (blackhole_add_whitelist_ip cap ip_str s w).ret = 0 ∧
        bpf_map_lookup_elem (blackhole_add_whitelist_ip cap ip_str s w).world.store
          (keyOf octets) = some 1 ∧
        (∀ k2, k2 ≠ keyOf octets →
          bpf_map_lookup_elem (blackhole_add_whitelist_ip cap ip_str s w).world.store k2 =
            bpf_map_lookup_elem w.store k2) ∧
        (∀ g, IPv4Frame g → srcOctets g = octets →
          (xdp_ingress_func (blackhole_add_whitelist_ip cap ip_str s w).world.store g).ret
            = XDP_PASS) ∧
        (blackhole_add_whitelist_ip cap ip_str
          (blackhole_add_whitelist_ip cap ip_str s w).session
          (blackhole_add_whitelist_ip cap ip_str s w).world).ret = 0 ∧
        (blackhole_add_whitelist_ip cap ip_str
          (blackhole_add_whitelist_ip cap ip_str s w).session
          (blackhole_add_whitelist_ip cap ip_str s w).world).world.store =
          (blackhole_add_whitelist_ip cap ip_str s w).world.store) ∧
      (keyOf octets ∉ w.store.keys ∧ cap ≤ w.store.length →
        (blackhole_add_whitelist_ip cap ip_str s w).ret = -1 ∧
        (blackhole_add_whitelist_ip cap ip_str s w).world.store = w.store)) := by
  refine ⟨?_, ?_⟩
  · rintro (hfd | hbad)
    · simp [blackhole_add_whitelist_ip, hfd]
    · by_cases hfd : s.map_fd < 0
      · simp [blackhole_add_whitelist_ip, hfd]
      · simp [blackhole_add_whitelist_ip, hfd, add_to_whitelist, hbad]
  · intro octets hfd hok
    have hfd2 : ¬ s.map_fd < 0 := by omega
    refine ⟨?_, ?_⟩
    · intro hroom
      obtain ⟨u1, u2, u3, u4⟩ := update_ok cap w.store (keyOf octets) 1 hroom
      have first : blackhole_add_whitelist_ip cap ip_str s w =
          ⟨0, { s with whitelist_ips := s.whitelist_ips ++ [ip_str] },
            { w with store := (bpf_map_update_elem cap w.store (keyOf octets) 1).1,
                     log := w.log ++ [Op.map_update (keyOf octets) 1] }⟩ := by
        simp [blackhole_add_whitelist_ip, hfd2, add_to_whitelist, hok, keyOf] at u1 ⊢
        simp [u1]
      have second : blackhole_add_whitelist_ip cap ip_str
          (blackhole_add_whitelist_ip cap ip_str s w).session
          (blackhole_add_whitelist_ip cap ip_str s w).world =
          ⟨0, { s with whitelist_ips := s.whitelist_ips ++ [ip_str] ++ [ip_str] },
            { w with store := (bpf_map_update_elem cap w.store (keyOf octets) 1).1,
                     log := w.log ++ [Op.map_update (keyOf octets) 1] ++
                       [Op.map_update (keyOf octets) 1] }⟩ := by
        rw [first]
        simp [blackhole_add_whitelist_ip, hfd2, add_to_whitelist, hok, keyOf] at u4 ⊢
        simp [u4]
      rw [second, first]
      refine ⟨rfl, u2, u3, ?_, rfl, rfl⟩
      intro g hg hsrc
      rw [xdp_ingress_ipv4 _ g hg, hsrc]
      simp only [u2]
      simp
    · rintro ⟨habs, hfull⟩
      have hu := update_full cap w.store (keyOf octets) 1 habs hfull
      simp [blackhole_add_whitelist_ip, hfd2, add_to_whitelist, hok, keyOf] at hu ⊢
      simp [hu, E2BIG]

/-- The three cases of the contract: a malformed string, "10.0.0.1" on a map with
room, and "10.0.0.1" on a full map. -/
theorem add_contract_witness :
    ((blackhole_add_whitelist_ip 4 "bad-ip" { Session.initial with map_fd := 5 }
        (World.fresh [(keyOf [1, 1, 1, 1], 1)] true)).ret = -1 ∧
      (blackhole_add_whitelist_ip 4 "bad-ip" { Session.initial with map_fd := 5 }
        (World.fresh [(keyOf [1, 1, 1, 1], 1)] true)).world.store = [(keyOf [1, 1, 1, 1], 1)]) ∧
    ((blackhole_add_whitelist_ip 4 "10.0.0.1" { Session.initial with map_fd := 5 }
        (World.fresh [(keyOf [1, 1, 1, 1], 1)] true)).ret = 0 ∧
      bpf_map_lookup_elem (blackhole_add_whitelist_ip 4 "10.0.0.1"
        { Session.initial with map_fd := 5 }
        (World.fresh [(keyOf [1, 1, 1, 1], 1)] true)).world.store (keyOf [10, 0, 0, 1])
        = some 1) ∧
    ((blackhole_add_whitelist_ip 1 "10.0.0.1" { Session.initial with map_fd := 5 }
        (World.fresh [(keyOf [1, 1, 1, 1], 1)] true)).ret = -1 ∧
      (blackhole_add_whitelist_ip 1 "10.0.0.1" { Session.initial with map_fd := 5 }
        (World.fresh [(keyOf [1, 1, 1, 1], 1)] true)).world.store = [(keyOf [1, 1, 1, 1], 1)]) :=
  ⟨(add_contract 4 "bad-ip" { Session.initial with map_fd := 5 }
      (World.fresh [(keyOf [1, 1, 1, 1], 1)] true)).1 (Or.inr (by decide)),
   have h := (add_contract 4 "10.0.0.1" { Session.initial with map_fd := 5 }
      (World.fresh [(keyOf [1, 1, 1, 1], 1)] true)).2 [10, 0, 0, 1] (by decide) (by decide)
   have h1 := h.1 (Or.inr (by decide))
   ⟨h1.1, h1.2.1⟩,
   ((add_contract 1 "10.0.0.1" { Session.initial with map_fd := 5 }
      (World.fresh [(keyOf [1, 1, 1, 1], 1)] true)).2 [10, 0, 0, 1] (by decide) (by decide)).2
      ⟨by decide, by decide⟩⟩

/-- Invariant of the scanning loop of `inet_pton`: whatever it accepts is four
bytes. -/
theorem inet_pton4_loop_bytes (cs : List Char) : ∀ (tmp : List Nat) (cur : Nat) (saw : Bool)
    (octets : Nat) (out : List Nat),
    IsBytes tmp → cur ≤ 255 →
    (saw = true → tmp.length + 1 = octets ∧ octets ≤ 4) →
    (saw = false → tmp.length = octets ∧ octets ≤ 3) →
    inet_pton4_loop cs tmp cur saw octets = some out →
    out.length = 4 ∧ IsBytes out := by
  induction cs with
  | nil =>
    intro tmp cur saw octets out hb hc ht hf h
    unfold inet_pton4_loop at h
    split at h
    · exact absurd h (by simp)
    · rename_i h4
      cases saw with
      | false => have := hf rfl; omega
      | true =>
        have := ht rfl
        have hout : out = tmp ++ [cur] := by simpa using h.symm
        subst hout
        refine ⟨by simp; omega, ?_⟩
        intro b hbm
        rcases List.mem_append.mp hbm with hm | hm
        · exact hb b hm
        · have : b = cur := by simpa using hm
          omega
  | cons ch rest ih =>
    intro tmp cur saw octets out hb hc ht hf h
    unfold inet_pton4_loop at h
    split at h
    · split at h
      · exact absurd h (by simp)
      · split at h
        · exact absurd h (by simp)
        · rename_i hnew
          split at h
          · rename_i hsaw
            exact ih tmp _ true octets out hb (by omega) (fun _ => ht hsaw)
              (fun hh => absurd hh (by simp)) h
          · rename_i hsaw
            have hsf : saw = false := by simpa using hsaw
            split at h
            · exact absurd h (by simp)
            · rename_i h5
              have := hf hsf
              exact ih tmp _ true (octets + 1) out hb (by omega) (fun _ => by omega)
                (fun hh => absurd hh (by simp)) h
    · split at h
      · rename_i hdot
        split at h
        · exact absurd h (by simp)
        · rename_i hne
          have := ht hdot.2
          refine ih (tmp ++ [cur]) 0 false octets out ?_ (by omega)
            (fun hh => absurd hh (by simp)) (fun _ => by simp; omega) h
          intro b hbm
          rcases List.mem_append.mp hbm with hm | hm
          · exact hb b hm
          · have : b = cur := by simpa using hm
            omega
      · exact absurd h (by simp)

/-- An address string accepted by `inet_pton` yields four bytes, hence a 32-bit
key. -/
theorem inet_pton_bytes (ip_str : String) (octets : List Nat)
    (h : inet_pton ip_str = some octets) : octets.length = 4 ∧ IsBytes octets :=
  inet_pton4_loop_bytes ip_str.toList [] 0 false 0 octets (by intro b hb; simp at hb)
    (by omega) (fun hh => absurd hh (by simp)) (fun _ => by simp) h

/-- Without a live map descriptor `blackhole_clear_whitelist` returns -1 and changes
nothing. -/
theorem clear_whitelist_not_ready (s : Session) (w : World) (h : s.map_fd < 0) :
    blackhole_clear_whitelist s w = ⟨-1, s, w⟩ := by
  simp [blackhole_clear_whitelist, h]

/-- With a live map descriptor `blackhole_clear_whitelist` returns 0. -/
theorem clear_whitelist_ret (s : Session) (w : World) (h : 0 ≤ s.map_fd) :
    (blackhole_clear_whitelist s w).ret = 0 := by
  have h2 : ¬ s.map_fd < 0 := by omega
  simp [blackhole_clear_whitelist, h2]

/-! ## `blackhole_init` and `blackhole_cleanup` -/

/-- C7. When `blackhole_init`, called with the variables in their initial state in
a world where this process holds nothing, returns -1 (at whichever step it failed),
neither classifier is attached, every image object opened during the call has been
released, and no live map descriptor is published. -/
theorem init_rolls_back (env : Env) (ifname tc_prog_path xdp_prog_path : Option String)
    (store : Store) (hook : Bool)
    (hfail : (blackhole_init env ifname tc_prog_path xdp_prog_path Session.initial
      (World.fresh store hook)).ret = -1) :
    (blackhole_init env ifname tc_prog_path xdp_prog_path Session.initial
      (World.fresh store hook)).world.tc_attached = false ∧
    (blackhole_init env ifname tc_prog_path xdp_prog_path Session.initial
      (World.fresh store hook)).world.xdp_attached = false ∧
    (blackhole_init env ifname tc_prog_path xdp_prog_path Session.initial
      (World.fresh store hook)).world.images = [] ∧
    (blackhole_init env ifname tc_prog_path xdp_prog_path Session.initial
      (World.fresh store hook)).session.map_fd < 0 := by
  obtain ⟨nti, tc_open, tc_load, xdp_open, xdp_load, hce, tc_prog, tc_attach, th, tp, ti,
    xdp_prog, xdp_attach, wmap⟩ := env
  cases ifname with
  | none => simp [blackhole_init, World.fresh, Session.initial]
  | some ifname =>
  cases tc_prog_path with
  | none => simp [blackhole_init, World.fresh, Session.initial]
  | some tcp =>
  cases xdp_prog_path with
  | none => simp [blackhole_init, World.fresh, Session.initial]
  | some xdpp =>
  by_cases hidx : nti ifname = 0
  · simp [blackhole_init, World.fresh, Session.initial, hidx]
  have hpos : (0 : Int) < (nti ifname : Int) := by omega
  have hidx2 : ¬ (nti ifname : Int) = 0 := by omega
  cases tc_open
  · simp [blackhole_init, World.fresh, Session.initial, hidx, bpf_object__open_file]
  cases tc_load
  · simp [blackhole_init, World.fresh, Session.initial, hidx, bpf_object__open_file,
      bpf_object__close]
  cases xdp_open
  · simp [blackhole_init, World.fresh, Session.initial, hidx, bpf_object__open_file,
      bpf_object__close]
  cases xdp_load
  · simp [blackhole_init, World.fresh, Session.initial, hidx, bpf_object__open_file,
      bpf_object__close]
  cases hce
  swap
  · simp [blackhole_init, World.fresh, Session.initial, hidx, bpf_object__open_file,
      bpf_object__close, bpf_tc_hook_create, bpf_tc_hook_destroy, bpf_tc_attach, bpf_xdp_attach,
      EEXIST, ENOENT]
  cases tc_prog with
  | none => cases hook <;> simp [blackhole_init, World.fresh, Session.initial, hidx, bpf_object__open_file,
      bpf_object__close, bpf_tc_hook_create, bpf_tc_hook_destroy, bpf_tc_attach, bpf_xdp_attach,
      EEXIST, ENOENT]
  | some tfd =>
  by_cases htfd : tfd < 0
  · cases hook <;> simp [blackhole_init, World.fresh, Session.initial, hidx, bpf_object__open_file,
      bpf_object__close, bpf_tc_hook_create, bpf_tc_hook_destroy, bpf_tc_attach, bpf_xdp_attach,
      EEXIST, ENOENT, htfd]
  cases tc_attach
  · cases hook <;> simp [blackhole_init, World.fresh, Session.initial, hidx, bpf_object__open_file,
      bpf_object__close, bpf_tc_hook_create, bpf_tc_hook_destroy, bpf_tc_attach, bpf_xdp_attach,
      EEXIST, ENOENT, htfd]
  cases xdp_prog with
  | none => cases hook <;> simp [blackhole_init, World.fresh, Session.initial, hidx, bpf_object__open_file,
      bpf_object__close, bpf_tc_hook_create, bpf_tc_hook_destroy, bpf_tc_attach, bpf_xdp_attach,
      EEXIST, ENOENT, htfd]
  | some xfd =>
  by_cases hxfd : xfd < 0
  · cases hook <;> simp [blackhole_init, World.fresh, Session.initial, hidx, bpf_object__open_file,
      bpf_object__close, bpf_tc_hook_create, bpf_tc_hook_destroy, bpf_tc_attach, bpf_xdp_attach,
      EEXIST, ENOENT, htfd, hxfd]
  cases xdp_attach
  · cases hook <;> simp [blackhole_init, World.fresh, Session.initial, hidx, bpf_object__open_file,
      bpf_object__close, bpf_tc_hook_create, bpf_tc_hook_destroy, bpf_tc_attach, bpf_xdp_attach,
      EEXIST, ENOENT, htfd, hxfd]
  cases wmap with
  | none => cases hook <;> simp [blackhole_init, World.fresh, Session.initial, hidx, bpf_object__open_file,
      bpf_object__close, bpf_tc_hook_create, bpf_tc_hook_destroy, bpf_tc_attach, bpf_xdp_attach,
      EEXIST, ENOENT,
      blackhole_cleanup, cleanup_internal, bpf_xdp_detach, bpf_tc_detach, hpos, htfd, hxfd]
  | some mfd =>
  by_cases hmfd : mfd < 0
  · have hmfd2 : ¬ 0 ≤ mfd := by omega
    cases hook <;> simp [blackhole_init, World.fresh, Session.initial, hidx, bpf_object__open_file,
      bpf_object__close, bpf_tc_hook_create, bpf_tc_hook_destroy, bpf_tc_attach, bpf_xdp_attach,
      EEXIST, ENOENT,
      blackhole_cleanup, cleanup_internal, bpf_xdp_detach, bpf_tc_detach, hpos, htfd, hxfd, hmfd, hmfd2]
  · exfalso
    revert hfail
    cases hook <;> simp [blackhole_init, World.fresh, Session.initial, hidx, bpf_object__open_file,
      bpf_object__close, bpf_tc_hook_create, bpf_tc_hook_destroy, bpf_tc_attach, bpf_xdp_attach,
      EEXIST, ENOENT, htfd, hxfd, hmfd]

/-- The ingress attach fails after the egress attach succeeded: the egress
classifier is no longer attached when `blackhole_init` returns -1. -/
theorem init_rolls_back_witness :
    (blackhole_init { Env.good with xdp_attach := false } (some "eth0") (some "tc_egress.o")
      (some "xdp_ingress.o") Session.initial (World.fresh [] false)).ret = -1 ∧
    Op.tc_attach ∈ (blackhole_init { Env.good with xdp_attach := false } (some "eth0")
      (some "tc_egress.o") (some "xdp_ingress.o") Session.initial
      (World.fresh [] false)).world.log ∧
    (blackhole_init { Env.good with xdp_attach := false } (some "eth0") (some "tc_egress.o")
      (some "xdp_ingress.o") Session.initial (World.fresh [] false)).world.tc_attached = false :=
  ⟨by decide, by decide,
    (init_rolls_back { Env.good with xdp_attach := false } (some "eth0") (some "tc_egress.o")
      (some "xdp_ingress.o") [] false (by decide)).1⟩

/-- With `created_qdisc` false, `blackhole_cleanup` leaves the egress attachment
point alone. -/
theorem cleanup_keeps_foreign_hook (s : Session) (w : World) (h : s.created_qdisc = false) :
    (blackhole_cleanup s w).world.egress_hook = w.egress_hook := by
  obtain ⟨tc_obj, xdp_obj, ifindex, tc_hook, tc_opts, ips, map_fd, created⟩ := s
  simp only at h
  subst h
  cases tc_obj <;> cases xdp_obj <;>
    by_cases h1 : map_fd ≥ 0 <;> by_cases h2 : ifindex > 0 <;>
    by_cases h3 : tc_hook.ifindex > 0 <;> by_cases h4 : map_fd < 0 <;>
    by_cases h5 : w.tc_attached <;>
    simp [blackhole_cleanup, cleanup_internal, h1, h2, h3, h4, h5, clear_map, bpf_xdp_detach,
      bpf_tc_detach, bpf_object__close]

/-- C8 (code defect). The egress attachment point already exists when
`blackhole_init` runs, so `bpf_tc_hook_create` reports `-EEXIST` and `created_qdisc`
is false; `bpf_tc_attach` then fails, and the failure path calls
`bpf_tc_hook_destroy` all the same: the attachment point that this session did not
create is gone. -/
theorem init_destroys_foreign_hook :
    (World.fresh [] true).egress_hook = true ∧
    (blackhole_init { Env.good with tc_attach := false } (some "eth0") (some "tc_egress.o")
      (some "xdp_ingress.o") Session.initial (World.fresh [] true)).ret = -1 ∧
    (blackhole_init { Env.good with tc_attach := false } (some "eth0") (some "tc_egress.o")
      (some "xdp_ingress.o") Session.initial (World.fresh [] true)).session.created_qdisc
      = false ∧
    Op.tc_hook_destroy ∈ (blackhole_init { Env.good with tc_attach := false } (some "eth0")
      (some "tc_egress.o") (some "xdp_ingress.o") Session.initial
      (World.fresh [] true)).world.log ∧
    (blackhole_init { Env.good with tc_attach := false } (some "eth0") (some "tc_egress.o")
      (some "xdp_ingress.o") Session.initial (World.fresh [] true)).world.egress_hook
      = false := by
  decide

/-- C10 (code defect). The ingress image cannot be opened, so `blackhole_init`
releases the egress image (object 0) and returns -1, but `tc_obj` still points to
it; the following `blackhole_cleanup` releases object 0 a second time. -/
theorem failed_init_then_cleanup_releases_twice :
    (blackhole_init { Env.good with xdp_open := false } (some "eth0") (some "tc_egress.o")
      (some "xdp_ingress.o") Session.initial (World.fresh [] false)).ret = -1 ∧
    (blackhole_init { Env.good with xdp_open := false } (some "eth0") (some "tc_egress.o")
      (some "xdp_ingress.o") Session.initial (World.fresh [] false)).session.tc_obj = some 0 ∧
    (blackhole_init { Env.good with xdp_open := false } (some "eth0") (some "tc_egress.o")
      (some "xdp_ingress.o") Session.initial (World.fresh [] false)).world.log
      = [Op.object_open 0, Op.object_close 0] ∧
    (0 : Nat) ∉ (blackhole_init { Env.good with xdp_open := false } (some "eth0")
      (some "tc_egress.o") (some "xdp_ingress.o") Session.initial
      (World.fresh [] false)).world.images ∧
    ((blackhole_cleanup
      (blackhole_init { Env.good with xdp_open := false } (some "eth0") (some "tc_egress.o")
        (some "xdp_ingress.o") Session.initial (World.fresh [] false)).session
      (blackhole_init { Env.good with xdp_open := false } (some "eth0") (some "tc_egress.o")
        (some "xdp_ingress.o") Session.initial (World.fresh [] false)).world).world.log.count
      (Op.object_close 0)) = 2 := by
  decide

/-- From the initial variables `blackhole_cleanup` makes no call at all. -/
theorem cleanup_initial (w : World) :
    blackhole_cleanup Session.initial w = ⟨Session.initial, w, false⟩ := by
  simp [blackhole_cleanup, cleanup_internal, Session.initial]

/-- After `blackhole_cleanup` every variable has its initial value. -/
theorem cleanup_session (s : Session) (w : World) :
    (blackhole_cleanup s w).session = Session.initial := by
  obtain ⟨tc_obj, xdp_obj, ifindex, tc_hook, tc_opts, ips, map_fd, created⟩ := s
  cases tc_obj <;> cases xdp_obj <;> by_cases h3 : tc_hook.ifindex > 0 <;>
    simp [blackhole_cleanup, cleanup_internal, Session.initial, h3]

/-- C9. From any state of the variables (the attached state and the
never-initialized state among them) `blackhole_cleanup` returns without exiting and
leaves every variable at its initial value; a second `blackhole_cleanup` right
after it makes no call (the world, its call log included, is unchanged) and leaves
the variables unchanged; afterwards `blackhole_add_whitelist_ip` and
`blackhole_clear_whitelist` return -1 and change nothing. -/
theorem cleanup_idempotent (s : Session) (w : World) (cap : Nat) (ip_str : String) :
    (blackhole_cleanup s w).session = Session.initial ∧
    (blackhole_cleanup s w).exited = false ∧
    blackhole_cleanup (blackhole_cleanup s w).session (blackhole_cleanup s w).world =
      ⟨Session.initial, (blackhole_cleanup s w).world, false⟩ ∧
    blackhole_add_whitelist_ip cap ip_str (blackhole_cleanup s w).session
      (blackhole_cleanup s w).world = ⟨-1, Session.initial, (blackhole_cleanup s w).world⟩ ∧
    blackhole_clear_whitelist (blackhole_cleanup s w).session (blackhole_cleanup s w).world =
      ⟨-1, Session.initial, (blackhole_cleanup s w).world⟩ := by
  have hs := cleanup_session s w
  refine ⟨hs, rfl, ?_, ?_, ?_⟩
  · rw [hs]; exact cleanup_initial _
  · rw [hs]; simp [blackhole_add_whitelist_ip, Session.initial]
  · rw [hs]; simp [blackhole_clear_whitelist, Session.initial]

end Blackhole
